import Mathlib

/-
  Verification development for the d64 disk-image library (src/d64.cpp,
  src/d64_types.h).  The C++ code operates on a flat byte buffer
  (std::vector of uint8_t); we model that buffer as a total function from
  Int to Nat (byte values), so that the pointer arithmetic of the source —
  including out-of-range pointers produced from calcOffset returning -1 —
  is representable exactly.  Every operation below is a direct translation
  of the corresponding function of d64.cpp, bug for bug.
-/

set_option maxRecDepth 10000

/-- Flat byte memory, indexed by Int (the C++ buffer with pointer arithmetic). -/
abbrev Mem := Int → Nat

/-- Constants of d64_types.h. -/
def SECTOR_SIZE : Nat := 256

def DIRECTORY_TRACK : Nat := 18

def DIRECTORY_SECTOR : Nat := 1

def BAM_SECTOR : Nat := 0

def FILE_NAME_SZ : Nat := 16

def A0_VALUE : Nat := 160

def SIDE_SECTOR_CHAIN_SZ : Nat := 120

/-- Modelled from the spec: per-track sector counts of the missing header d64.h
    (0-based index, 40 entries; legacy geometry: tracks 1-17 have 21 sectors,
    18-24 have 19, 25-30 have 18, 31-40 have 17).  The spec fixes the image
    sizes 174848 and 196608 which force exactly these counts. -/
def SECTORS_PER_TRACK (i : Nat) : Nat :=
  if i < 17 then 21 else if i < 24 then 19 else if i < 30 then 18 else 17

/-- Cumulative sector count before 0-based track index i (geometry data). -/
def trackBaseSectors (i : Nat) : Nat :=
  if i ≤ 17 then 21 * i
  else if i ≤ 24 then 357 + 19 * (i - 17)
  else if i ≤ 30 then 490 + 18 * (i - 24)
  else 598 + 17 * (i - 30)

/-- Modelled from the spec: byte offset of the start of a track (missing
    header d64.h), 0-based index. -/
def TRACK_OFFSETS (i : Nat) : Int := 256 * (trackBaseSectors i)

/-- Modelled from the spec: the fixed interleave constant of the sector
    allocator (missing header d64.h; the legacy design value is 10). -/
def INTERLEAVE : Nat := 10

/-- The d64 object state: the flat image plus the fields of the class that
    the core functions use (TRACKS, disktype, lastSectorUsed).  disktypeN is
    the numeric value of the diskType enum (0 = thirty_five_track,
    1 = forty_track), kept numeric because d64.cpp compares it against the
    integer constant TRACKS_35 = 35. -/
structure State where
  mem : Mem
  size : Nat
  tracks : Nat
  disktypeN : Nat
  lastSectorUsed : Nat → Nat

/-- Write one byte (an assignment data[off] = v through a raw pointer). -/
def setByte (st : State) (off : Int) (v : Nat) : State :=
  { st with mem := fun i => if i = off then v else st.mem i }

/-- Write a contiguous range of len bytes starting at base, byte j of the
    range receiving f j.  This models the byte-copy loops and memset/fill
    calls of the source, which write each offset of the range exactly once. -/
def writeRange (m : Mem) (base : Int) (len : Nat) (f : Nat → Nat) : Mem :=
  fun i => if base ≤ i ∧ i < base + len then f (i - base).toNat else m i

/-- d64::calcOffset, including its validation exactly as written
    (the check is sector > SECTORS_PER_TRACK[track - 1], which admits
    sector == SECTORS_PER_TRACK[track - 1]); -1 signals an invalid address. -/
def calcOffset (st : State) (track sector : Nat) : Int :=
  if track < 1 ∨ track > st.tracks ∨ sector > SECTORS_PER_TRACK (track - 1) then -1
  else TRACK_OFFSETS (track - 1) + sector * 256

/-- Byte offset of the BAM block (sector (18,0)); getBAMPtr caches this. -/
def BAM_BASE : Int := TRACK_OFFSETS 17

/-- Offset of the free-count byte of bamtrack(t0) (t0 is the 0-based index). -/
def bamFreeOff (t0 : Nat) : Int := BAM_BASE + 4 + 4 * t0

/-- Offset of bitmap byte b of bamtrack(t0). -/
def bamByteOff (t0 b : Nat) : Int := BAM_BASE + 4 + 4 * t0 + 1 + b

/-- d64::allocateSector, translated exactly: the validation indexes
    SECTORS_PER_TRACK by track instead of track - 1 (the source's slip), and
    the already-allocated test reads (val | (1 << bit)) == 0, which is never
    true, so the function never fails on an allocated sector and decrements
    the free count unconditionally (uint8 arithmetic, hence mod 256). -/
def allocateSector (st : State) (track sector : Nat) : Bool × State :=
  if track < 1 ∨ track > st.tracks ∨ sector > SECTORS_PER_TRACK track then (false, st)
  else
    let byte := sector / 8
    let bit := sector % 8
    let val := st.mem (bamByteOff (track - 1) byte)
    if val ||| (1 <<< bit) = 0 then (false, st)
    else
      let st1 := setByte st (bamFreeOff (track - 1)) ((st.mem (bamFreeOff (track - 1)) + 255) % 256)
      let st2 := setByte st1 (bamByteOff (track - 1) byte) (val &&& (255 ^^^ (1 <<< bit)))
      (true, st2)

/-- d64::freeSector, translated exactly (same off-by-one validation index;
    the two protected directory-track sectors are refused; freeing an
    already-free sector is refused). -/
def freeSector (st : State) (track sector : Nat) : Bool × State :=
  if track < 1 ∨ track > st.tracks ∨ sector > SECTORS_PER_TRACK track then (false, st)
  else if track = DIRECTORY_TRACK ∧ sector = DIRECTORY_SECTOR then (false, st)
  else if track = DIRECTORY_TRACK ∧ sector = BAM_SECTOR then (false, st)
  else
    let byte := sector / 8
    let bit := sector % 8
    let val := st.mem (bamByteOff (track - 1) byte)
    if val &&& (1 <<< bit) ≠ 0 then (false, st)
    else
      let st1 := setByte st (bamFreeOff (track - 1)) ((st.mem (bamFreeOff (track - 1)) + 1) % 256)
      let st2 := setByte st1 (bamByteOff (track - 1) byte) (val ||| (1 <<< bit))
      (true, st2)

/-- Scan loop of d64::findAndAllocateFreeOnTrack: n sectors remain to try,
    i is the loop counter.  As in the source, the Boolean result of
    allocateSector is ignored. -/
def findFreeOnTrackLoop (st : State) (track spt startS i : Nat) : Nat → Option Nat × State
  | 0 => (none, st)
  | n + 1 =>
    let s := (startS + i) % spt
    let byte := s / 8
    let bit := s % 8
    let val := st.mem (bamByteOff (track - 1) byte)
    if val &&& (1 <<< bit) ≠ 0 then
      let st1 := (allocateSector st track s).2
      let st2 := { st1 with lastSectorUsed := fun t => if t = track - 1 then s else st1.lastSectorUsed t }
      (some s, st2)
    else findFreeOnTrackLoop st track spt startS (i + 1) n

/-- d64::findAndAllocateFreeOnTrack. -/
def findAndAllocateFreeOnTrack (st : State) (track : Nat) : Option Nat × State :=
  if st.mem (bamFreeOff (track - 1)) < 1 then (none, st)
  else
    let spt := SECTORS_PER_TRACK (track - 1)
    let startS := (st.lastSectorUsed (track - 1) + INTERLEAVE) % spt
    findFreeOnTrackLoop st track spt startS 0 spt

/-- The 35-track priority table of d64::findAndAllocateFreeSector. -/
def TRACK_SEARCH_ORDER : List Nat :=
  [18, 17, 19, 16, 20, 15, 21, 14, 22, 13, 23, 12, 24, 11, 25, 10, 26, 9,
   27, 8, 28, 7, 29, 6, 30, 5, 31, 4, 32, 3, 33, 2, 34, 1, 35]

/-- The 40-track priority table. -/
def TRACK_40_SEARCH_ORDER : List Nat :=
  [18, 17, 19, 16, 20, 15, 21, 14, 22, 13, 23, 12, 24, 11, 25, 10, 26, 9,
   27, 8, 28, 7, 29, 6, 30, 5, 31, 4, 32, 3, 33, 2, 34, 1, 35, 36, 37, 38, 39, 40]

/-- Track iteration of d64::findAndAllocateFreeSector. -/
def findSectorLoop : State → List Nat → Option (Nat × Nat) × State
  | st, [] => (none, st)
  | st, t :: rest =>
    match findAndAllocateFreeOnTrack st t with
    | (some s, st1) => (some (t, s), st1)
    | (none, st1) => findSectorLoop st1 rest

/-- d64::findAndAllocateFreeSector.  The source selects the table with
    if (disktype == TRACKS_35), comparing the enum value (0 or 1) against the
    integer 35; the comparison is therefore never true and the 40-entry table
    is used for both variants.  Translated exactly. -/
def findAndAllocateFreeSector (st : State) : Option (Nat × Nat) × State :=
  if st.disktypeN = 35 then findSectorLoop st TRACK_SEARCH_ORDER
  else findSectorLoop st TRACK_40_SEARCH_ORDER

/-- Value built by the bit loop of d64::initBAM for the third bitmap byte:
    bits 0 .. b-1 set. -/
def lowMask (b : Nat) : Nat := (1 <<< b) - 1

/-- d64::initializeBAMFields: the field writes on the BAM block, with the
    disk name copied then padded with 0xA0 to 16 bytes. -/
def initializeBAMFields (st : State) (name : List Nat) : State :=
  let st1 := setByte st (BAM_BASE + 0) DIRECTORY_TRACK
  let st2 := setByte st1 (BAM_BASE + 1) DIRECTORY_SECTOR
  let st3 := setByte st2 (BAM_BASE + 2) 65
  let st4 := setByte st3 (BAM_BASE + 3) 0
  let len := min name.length 16
  let nameByte := fun j => if j < len then name.getD j 0 else A0_VALUE
  let st5 := { st4 with mem := writeRange st4.mem (BAM_BASE + 144) 16 nameByte }
  let st6 := { st5 with mem := writeRange st5.mem (BAM_BASE + 160) 5 (fun _ => A0_VALUE) }
  let st7 := setByte st6 (BAM_BASE + 165) 50
  let st8 := setByte st7 (BAM_BASE + 166) 65
  { st8 with mem := writeRange st8.mem (BAM_BASE + 167) 89 (fun _ => 0) }

/-- The per-track loop of d64::initBAM writing each bamtrack entry (free
    count, 0xFF, 0xFF, low-bit mask); writes tracks with 0-based index < t. -/
def initBamTracks (st : State) : Nat → State
  | 0 => st
  | t + 1 =>
    let st1 := initBamTracks st t
    let entryByte := fun j =>
      if j = 0 then SECTORS_PER_TRACK t
      else if j = 3 then lowMask (SECTORS_PER_TRACK t % 8)
      else 255
    { st1 with mem := writeRange st1.mem (bamFreeOff t) 4 entryByte }

/-- d64::initBAM. -/
def initBAM (st : State) (name : List Nat) : State :=
  let st1 := initializeBAMFields st name
  let st2 := initBamTracks st1 st1.tracks
  let idx := calcOffset st2 DIRECTORY_TRACK DIRECTORY_SECTOR
  let st3 := { st2 with mem := writeRange st2.mem idx 256 (fun _ => 0) }
  let st4 := setByte st3 (idx + 1) 255
  let st5 := (allocateSector st4 DIRECTORY_TRACK BAM_SECTOR).2
  (allocateSector st5 DIRECTORY_TRACK DIRECTORY_SECTOR).2

/-- d64::formatDisk: fill the whole image with 0x01, then initBAM. -/
def formatDisk (st : State) (name : List Nat) : State :=
  initBAM { st with mem := fun i => if 0 ≤ i ∧ i < (st.size : Int) then 1 else st.mem i } name

/-- The byte values of the default disk name NEW DISK. -/
def NEW_DISK_NAME : List Nat := [78, 69, 87, 32, 68, 73, 83, 75]

/-- A fresh 35-track disk as built by the default constructor: resize to
    174848 bytes of 0x01 then formatDisk NEW DISK. -/
def freshDisk : State :=
  formatDisk
    { mem := fun _ => 0, size := 174848, tracks := 35, disktypeN := 0,
      lastSectorUsed := fun _ => 0 }
    NEW_DISK_NAME

/-- Entry scan of d64::findEmptyDirectorySlot: return the offset of the first
    of the 8 directory entries of the sector at base whose closed flag
    (bit 7 of the file-type byte) is clear. -/
def scanFreeEntry (st : State) (base : Int) : Nat → Option Int
  | 0 => none
  | n + 1 =>
    let idx := 8 - (n + 1)
    let off := base + 2 + 30 * idx
    if st.mem off &&& 128 = 0 then some off
    else scanFreeEntry st base n

/-- The while loop of d64::findEmptyDirectorySlot.  When the next pointer of
    the current sector is not a valid address, the source allocates a fresh
    sector but then clears and terminates the sector located through the OLD
    next pointer (getDirectory_SectorPtr(dirSectorPtr->next.track,
    dirSectorPtr->next.sector), computed before any update), and loops on to
    the newly allocated address; translated exactly, including the resulting
    writes at the invalid offset calcOffset returns for the end-of-chain
    marker.  The fuel argument only models the unbounded while loop. -/
def findSlotLoop (st : State) (dt ds : Nat) : Nat → Option Int × State
  | 0 => (none, st)
  | fuel + 1 =>
    if dt = 0 then (none, st)
    else
      let base := calcOffset st dt ds
      match scanFreeEntry st base 8 with
      | some off => (some off, st)
      | none =>
        let nt := st.mem base
        let ns := st.mem (base + 1)
        if 0 < nt ∧ nt ≤ st.tracks ∧ ns < SECTORS_PER_TRACK (nt - 1) then
          findSlotLoop st nt ns fuel
        else
          match findAndAllocateFreeSector st with
          | (none, st1) => (none, st1)
          | (some (t1, s1), st1) =>
            let base2 := calcOffset st1 nt ns
            let st2 := { st1 with mem := writeRange st1.mem base2 256 (fun _ => 0) }
            let st3 := setByte st2 base2 0
            let st4 := setByte st3 (base2 + 1) 255
            findSlotLoop st4 t1 s1 fuel

/-- d64::findEmptyDirectorySlot. -/
def findEmptyDirectorySlot (st : State) (fuel : Nat) : Option Int × State :=
  findSlotLoop st DIRECTORY_TRACK DIRECTORY_SECTOR fuel

/-- The 16 stored file-name bytes of the directory entry at off. -/
def entryName (m : Mem) (off : Int) : List Nat :=
  (List.range 16).map (fun j => m (off + 3 + j))

/-- The name trimming of d64::findFile: std::string::erase from the first
    0xA0 byte to the end, i.e. keep the prefix before the first 0xA0. -/
def eraseFromFirstA0 (l : List Nat) : List Nat :=
  l.take (l.findIdx (fun b => b == A0_VALUE))

/-- The per-entry comparison of d64::findFile: the trimmed stored name must
    equal the query exactly. -/
def nameMatches (m : Mem) (off : Int) (query : List Nat) : Bool :=
  eraseFromFirstA0 (entryName m off) == query

/-- Entry scan of d64::findFile: first live entry whose trimmed name equals
    the query. -/
def scanFindFile (st : State) (base : Int) (query : List Nat) : Nat → Option Int
  | 0 => none
  | n + 1 =>
    let idx := 8 - (n + 1)
    let off := base + 2 + 30 * idx
    if st.mem off &&& 128 ≠ 0 ∧ nameMatches st.mem off query then some off
    else scanFindFile st base query n

/-- The while loop of d64::findFile (read-only directory walk). -/
def findFileLoop (st : State) (query : List Nat) (dt ds : Nat) : Nat → Option Int
  | 0 => none
  | fuel + 1 =>
    if dt = 0 then none
    else
      let base := calcOffset st dt ds
      match scanFindFile st base query 8 with
      | some off => some off
      | none => findFileLoop st query (st.mem base) (st.mem (base + 1)) fuel

/-- d64::findFile; returns the byte offset of the matching directory entry. -/
def findFile (st : State) (query : List Nat) (fuel : Nat) : Option Int :=
  findFileLoop st query DIRECTORY_TRACK DIRECTORY_SECTOR fuel

/-- Write one data sector of a sequential file: the two chain bytes followed
    by the 254 data bytes (bytes past the chunk are written as 0, as in the
    source's ternary). -/
def writeSectorChunk (st : State) (track sector nt ns : Nat) (chunk : List Nat) : State :=
  let off := calcOffset st track sector
  let st1 := setByte st off (nt % 256)
  let st2 := setByte st1 (off + 1) (ns % 256)
  { st2 with mem := writeRange st2.mem (off + 2) 254 (fun j => chunk.getD j 0 % 256) }

/-- The while loop of d64::addFile: write the chain starting at the already
    allocated sector (track, sector); rest is the not yet written suffix of
    the file data; alloc counts allocated sectors.  The fuel argument only
    bounds the loop (each iteration consumes 254 bytes, so any fuel larger
    than the data length is never exhausted; addFile passes length + 1). -/
def addFileLoop (st : State) (track sector : Nat) (rest : List Nat) (alloc : Nat) :
    Nat → Bool × State × Nat
  | 0 => (false, st, alloc)
  | fuel + 1 =>
    if rest.length = 0 then (true, st, alloc)
    else if rest.length > 254 then
      match findAndAllocateFreeSector st with
      | (none, st1) => (false, st1, alloc)
      | (some (nt, ns), st1) =>
        let st2 := writeSectorChunk st1 track sector nt ns (rest.take 254)
        addFileLoop st2 nt ns (rest.drop 254) (alloc + 1) fuel
    else
      (true, writeSectorChunk st track sector 0 rest.length rest, alloc)

/-- d64::addFile.  ftype is the numeric d64FileTypes value; the directory
    entry receives a file-type byte with the closed bit set (the replace bit,
    left uninitialized by the c64FileType constructor the source invokes, is
    modelled as 0). -/
def addFile (st : State) (filename : List Nat) (ftype : Nat) (fileData : List Nat)
    (fuel : Nat) : Bool × State :=
  match findAndAllocateFreeSector st with
  | (none, st1) => (false, st1)
  | (some (t0, s0), st1) =>
    match addFileLoop st1 t0 s0 fileData 1 (fileData.length + 1) with
    | (false, st2, _) => (false, st2)
    | (true, st2, alloc) =>
      match findEmptyDirectorySlot st2 fuel with
      | (none, st3) => (false, st3)
      | (some off, st3) =>
        let st4 := setByte st3 off (128 + (ftype % 16))
        let st5 := setByte st4 (off + 1) t0
        let st6 := setByte st5 (off + 2) s0
        let len := min filename.length 16
        let nameByte := fun j => if j < len then filename.getD j 0 else A0_VALUE
        let st7 := { st6 with mem := writeRange st6.mem (off + 3) 16 nameByte }
        let st8 := setByte st7 (off + 19) 0
        let st9 := setByte st8 (off + 20) 0
        let st10 := setByte st9 (off + 21) 0
        let st11 := { st10 with mem := writeRange st10.mem (off + 22) 4 (fun _ => 0) }
        let st12 := setByte st11 (off + 26) t0
        let st13 := setByte st12 (off + 27) s0
        let st14 := setByte st13 (off + 28) (alloc % 256)
        let st15 := setByte st14 (off + 29) (alloc / 256 % 256)
        (true, st15)

/-- The while loop of d64::readPRGFile: follow the chain, taking 254 bytes
    from a non-terminal sector and next.sector bytes from the terminal one.
    The source loop terminates only when it reaches a zero track, so fuel
    exhaustion (none) models non-termination. -/
def readChainLoop (st : State) (t s : Nat) (acc : List Nat) : Nat → Option (List Nat)
  | 0 => none
  | fuel + 1 =>
    if t = 0 then some acc
    else
      let off := calcOffset st t s
      let nt := st.mem off
      let ns := st.mem (off + 1)
      let cnt := if nt ≠ 0 then 254 else ns
      let acc1 := acc ++ (List.range cnt).map (fun j => st.mem (off + 2 + j))
      readChainLoop st nt ns acc1 fuel

/-- d64::readPRGFile on the directory entry at off. -/
def readPRGFile (st : State) (off : Int) (fuel : Nat) : Option (List Nat) :=
  readChainLoop st (st.mem (off + 1)) (st.mem (off + 2)) [] fuel

/-- Chain collection inside one side sector in d64::parseSideSectors: read
    entries chain[i] until one has track 0. -/
def sideChainEntries (st : State) (base : Int) (i : Nat) : Nat → List (Nat × Nat)
  | 0 => []
  | n + 1 =>
    let ct := st.mem (base + 16 + 2 * i)
    let cs := st.mem (base + 16 + 2 * i + 1)
    if ct = 0 then []
    else (ct, cs) :: sideChainEntries st base (i + 1) n

/-- The while loop of d64::parseSideSectors over the side-sector chain. -/
def parseSideLoop (st : State) (t s : Nat) (acc : List (Nat × Nat)) :
    Nat → Option (List (Nat × Nat))
  | 0 => none
  | fuel + 1 =>
    if t = 0 then some acc
    else
      let base := calcOffset st t s
      let nt := st.mem base
      let ns := st.mem (base + 1)
      let acc1 := acc ++ sideChainEntries st base 0 SIDE_SECTOR_CHAIN_SZ
      parseSideLoop st nt ns acc1 fuel

/-- d64::parseSideSectors. -/
def parseSideSectors (st : State) (t s : Nat) (fuel : Nat) : Option (List (Nat × Nat)) :=
  parseSideLoop st t s [] fuel

/-- d64::readRELFile on the directory entry at off: refuse non-REL types and
    a zero record length, then read record_length bytes from each mapped
    data sector in side-chain order. -/
def readRELFile (st : State) (off : Int) (fuel : Nat) : Option (List Nat) :=
  if st.mem off &&& 15 ≠ 4 then none
  else
    let recordLength := st.mem (off + 21)
    if recordLength = 0 then none
    else
      match parseSideSectors st (st.mem (off + 19)) (st.mem (off + 20)) fuel with
      | none => none
      | some recs =>
        some (recs.foldl
          (fun acc ts =>
            acc ++ (List.range recordLength).map
              (fun j => st.mem (calcOffset st ts.1 ts.2 + 2 + j)))
          [])

/-- d64::readFile: locate by name and dispatch on the entry's type nibble. -/
def readFile (st : State) (filename : List Nat) (fuel : Nat) : Option (List Nat) :=
  match findFile st filename fuel with
  | none => none
  | some off =>
    if st.mem off &&& 15 = 4 then readRELFile st off fuel
    else readPRGFile st off fuel

/-- The while loop of d64::removeFile: follow the chain from (t, s), freeing
    each visited sector (the next pointer is read before the free, through
    getTrackSectorPtr, i.e. plain byte reads at the sector's offset). -/
def freeChainLoop (st : State) (t s : Nat) : Nat → State
  | 0 => st
  | fuel + 1 =>
    if t = 0 then st
    else
      let off := calcOffset st t s
      let nt := st.mem off
      let ns := st.mem (off + 1)
      let st1 := (freeSector st t s).2
      freeChainLoop st1 nt ns fuel

/-- d64::removeFile: locate the entry, free the chain reachable from its
    start address, then zero the 30-byte entry. -/
def removeFile (st : State) (filename : List Nat) (fuel : Nat) : Bool × State :=
  match findFile st filename fuel with
  | none => (false, st)
  | some off =>
    let st1 := freeChainLoop st (st.mem (off + 1)) (st.mem (off + 2)) fuel
    (true, { st1 with mem := writeRange st1.mem off 30 (fun _ => 0) })

/-- d64::renameFile: overwrite only the 16 name bytes of the located entry
    (at most 16 bytes of the new name, 0xA0 padding for the rest). -/
def renameFile (st : State) (oldName newName : List Nat) (fuel : Nat) : Bool × State :=
  match findFile st oldName fuel with
  | none => (false, st)
  | some off =>
    let len := min newName.length 16
    let nameByte := fun j => if j < len then newName.getD j 0 else A0_VALUE
    (true, { st with mem := writeRange st.mem (off + 3) 16 nameByte })

/-- Clear the closed flag of the entry at off (the disk-full exit path of the
    add operations). -/
def clearClosed (st : State) (off : Int) : State :=
  setByte st off (st.mem off &&& 127)

/-- One pass of the fix-up loop of d64::addRelFile for one saved side-sector
    pointer: copy cnt sibling entries (track and sector bytes) from the first
    side sector to the side sector at dst. -/
def copySiblings (st : State) (src dst : Int) : Nat → State
  | 0 => st
  | k + 1 =>
    let st1 := copySiblings st src dst k
    let st2 := setByte st1 (dst + 4 + 2 * k) (st1.mem (src + 4 + 2 * k))
    setByte st2 (dst + 4 + 2 * k + 1) (st1.mem (src + 4 + 2 * k + 1))

/-- The fix-up loop of d64::addRelFile over all saved side-sector pointers.
    At run time cnt (the source's side_count) is always 0 — the source never
    increments it — so this loop copies nothing; translated exactly. -/
def backpatchAll (st : State) (src : Int) (sides : List Int) (cnt : Nat) : State :=
  sides.foldl (fun acc dst => copySiblings acc src dst cnt) st

/-- The inner chain loop of d64::addRelFile (for i < SIDE_SECTOR_CHAIN_SZ
    while not done).  Returns (ok, done, state, remaining data, allocated
    count); ok = false is the disk-full exit (closed flag already cleared).
    n is the countdown 120 - i of the bounded for loop. -/
def relInner (st : State) (entryOff sideOff firstSideOff : Int) (rest : List Nat)
    (alloc sideCount : Nat) (sides : List Int) (i : Nat) :
    Nat → Bool × Bool × State × List Nat × Nat
  | 0 => (true, false, st, rest, alloc)
  | n + 1 =>
    let ct := st.mem (sideOff + 16 + 2 * i)
    let cs := st.mem (sideOff + 16 + 2 * i + 1)
    if ct = 0 ∧ cs = 0 then
      match findAndAllocateFreeSector st with
      | (none, st1) => (false, false, clearClosed st1 entryOff, rest, alloc)
      | (some (dt, ds), st1) =>
        let st2 := setByte st1 (sideOff + 16 + 2 * i) dt
        let st3 := setByte st2 (sideOff + 16 + 2 * i + 1) ds
        let st4 :=
          if 0 < i then
            let pt := st3.mem (sideOff + 16 + 2 * (i - 1))
            let ps := st3.mem (sideOff + 16 + 2 * (i - 1) + 1)
            let poff := calcOffset st3 pt ps
            setByte (setByte st3 poff dt) (poff + 1) ds
          else st3
        let doff := calcOffset st4 dt ds
        let st5 := setByte (setByte st4 doff 0) (doff + 1) 0
        let st6 := { st5 with mem := writeRange st5.mem (doff + 2) 254 (fun j => rest.getD j 0 % 256) }
        let done := rest.length < 254
        if done then
          let st7 := setByte st6 (entryOff + 28) ((alloc + 1) % 256)
          let st8 := setByte st7 (entryOff + 29) ((alloc + 1) / 256 % 256)
          let st9 := backpatchAll st8 firstSideOff sides sideCount
          (true, true, st9, [], alloc + 1)
        else relInner st6 entryOff sideOff firstSideOff (rest.drop 254) (alloc + 1) sideCount sides (i + 1) n
    else relInner st entryOff sideOff firstSideOff rest alloc sideCount sides (i + 1) n

/-- The outer while loop of d64::addRelFile (while not done and
    side_count < 6; side_count is never incremented by the source, so the
    bound never triggers).  The fuel only models the unbounded repetition. -/
def relOuter (st : State) (entryOff firstSideOff : Int) (sideT sideS : Nat)
    (rest : List Nat) (alloc block sideCount recordSize : Nat) (sides : List Int) :
    Nat → Bool × State
  | 0 => (false, st)
  | fuel + 1 =>
    if sideCount ≥ 6 then (true, st)
    else
      let sideOff := calcOffset st sideT sideS
      let st1 := { st with mem := writeRange st.mem sideOff 256 (fun _ => 0) }
      let sides1 := sides ++ [sideOff]
      let st2 := setByte st1 (firstSideOff + 4 + 2 * sideCount) sideT
      let st3 := setByte st2 (firstSideOff + 4 + 2 * sideCount) sideT
      let st4 := setByte (setByte st3 sideOff 0) (sideOff + 1) 0
      let st5 := setByte st4 (sideOff + 3) recordSize
      let st6 := setByte st5 (sideOff + 2) (block % 256)
      match relInner st6 entryOff sideOff firstSideOff rest alloc sideCount sides1 0 SIDE_SECTOR_CHAIN_SZ with
      | (false, _, stF, _, _) => (false, stF)
      | (true, true, stD, _, _) => (true, stD)
      | (true, false, st7, rest1, alloc1) =>
        match findAndAllocateFreeSector st7 with
        | (none, st8) => (false, clearClosed st8 entryOff)
        | (some (nt, ns), st8) =>
          let st9 := setByte (setByte st8 sideOff nt) (sideOff + 1) ns
          relOuter st9 entryOff firstSideOff nt ns rest1 (alloc1 + 1) (block + 1) sideCount recordSize sides1 fuel

/-- d64::addRelFile.  The FileType parameter of the source is ignored there
    (the entry type is hardcoded to REL); the entry's file-type byte is 0x84
    (closed + REL, the uninitialized replace bit modelled as 0). -/
def addRelFile (st : State) (filename : List Nat) (recordSize : Nat)
    (fileData : List Nat) (fuel : Nat) : Bool × State :=
  match findEmptyDirectorySlot st fuel with
  | (none, st1) => (false, st1)
  | (some entryOff, st1) =>
    let st2 := { st1 with mem := writeRange st1.mem entryOff 30 (fun _ => 0) }
    let st3 := setByte st2 entryOff 132
    let len := min filename.length 16
    let nameByte := fun j => if j < len then filename.getD j 0 else A0_VALUE
    let st4 := { st3 with mem := writeRange st3.mem (entryOff + 3) 16 nameByte }
    let st5 := setByte st4 (entryOff + 21) recordSize
    match findAndAllocateFreeSector st5 with
    | (none, st6) => (false, clearClosed st6 entryOff)
    | (some (t0, s0), st6) =>
      let st7 := setByte st6 (entryOff + 19) t0
      let st8 := setByte st7 (entryOff + 20) s0
      let st9 := setByte st8 (entryOff + 1) t0
      let st10 := setByte st9 (entryOff + 2) s0
      let firstSideOff := calcOffset st10 t0 s0
      relOuter st10 entryOff firstSideOff t0 s0 fileData 1 0 0 recordSize [] fuel

/-- Mark one (0-based track, sector) pair used in the temporary usage map of
    d64::verifyBAMIntegrity. -/
def updateUsage (u : Nat → Nat → Bool) (t0 s : Nat) : Nat → Nat → Bool :=
  fun a b => if a = t0 ∧ b = s then true else u a b

/-- d64::readByte: calcOffset plus byte offset, bounds-checked afterwards
    (so an invalid address with a positive byte offset reads near byte 0,
    exactly as the source does). -/
def readByteModel (st : State) (track sector byteoffset : Nat) : Option Nat :=
  let offset := calcOffset st track sector + byteoffset
  if 0 ≤ offset ∧ offset < (st.size : Int) then some (st.mem offset) else none

/-- The file-chain walk of d64::verifyBAMIntegrity step 2, marking each
    visited sector used; next pointers are read with readByte and default to
    track 0 / sector 0xFF when the read fails. -/
def markChainLoop (st : State) (u : Nat → Nat → Bool) (t s : Nat) :
    Nat → (Nat → Nat → Bool)
  | 0 => u
  | fuel + 1 =>
    if t = 0 then u
    else
      let u1 := updateUsage u (t - 1) s
      let nt := (readByteModel st t s 0).getD 0
      let ns := (readByteModel st t s 1).getD 255
      markChainLoop st u1 nt ns fuel

/-- Per-directory-sector entry loop of d64::verifyBAMIntegrity step 2. -/
def markEntries (st : State) (u : Nat → Nat → Bool) (base : Int) (chainFuel : Nat) :
    Nat → (Nat → Nat → Bool)
  | 0 => u
  | n + 1 =>
    let idx := 8 - (n + 1)
    let off := base + 2 + 30 * idx
    let u1 :=
      if st.mem off &&& 128 = 0 then u
      else markChainLoop st u (st.mem (off + 1)) (st.mem (off + 2)) chainFuel
    markEntries st u1 base chainFuel n

/-- The directory walk of d64::verifyBAMIntegrity step 2. -/
def markDirLoop (st : State) (u : Nat → Nat → Bool) (dt ds chainFuel : Nat) :
    Nat → (Nat → Nat → Bool)
  | 0 => u
  | fuel + 1 =>
    if dt = 0 then u
    else
      let base := calcOffset st dt ds
      let u1 := updateUsage u (dt - 1) ds
      let u2 := markEntries st u1 base chainFuel 8
      markDirLoop st u2 (st.mem base) (st.mem (base + 1)) chainFuel fuel

/-- The per-sector comparison loop of d64::verifyBAMIntegrity step 3 for one
    track; found accumulates errorsFound, cnt counts reported discrepancies,
    cf is correctFreeCount. -/
def verifySectorLoop (st : State) (u : Nat → Nat → Bool) (fixB : Bool) (t : Nat)
    (found : Bool) (cnt cf s : Nat) : Nat → Bool × Nat × Nat × State
  | 0 => (found, cnt, cf, st)
  | n + 1 =>
    let byteIndex := s / 8
    let mask := 1 <<< (s % 8)
    let val := st.mem (bamByteOff (t - 1) byteIndex)
    let isFree := val &&& mask ≠ 0
    let used := u (t - 1) s
    if used = false ∧ ¬ isFree then
      let st1 := if fixB then setByte st (bamByteOff (t - 1) byteIndex) (val ||| mask) else st
      verifySectorLoop st1 u fixB t true (cnt + 1) (cf + 1) (s + 1) n
    else if used = true ∧ isFree then
      let st1 := if fixB then setByte st (bamByteOff (t - 1) byteIndex) (val &&& (255 ^^^ mask)) else st
      verifySectorLoop st1 u fixB t true (cnt + 1) cf (s + 1) n
    else
      verifySectorLoop st u fixB t found cnt (if used then cf else cf + 1) (s + 1) n

/-- The per-track loop of d64::verifyBAMIntegrity step 3, including the
    free-count comparison after the sector loop. -/
def verifyTrackLoop (st : State) (u : Nat → Nat → Bool) (fixB : Bool)
    (found : Bool) (cnt t : Nat) : Nat → Bool × Nat × State
  | 0 => (found, cnt, st)
  | n + 1 =>
    match verifySectorLoop st u fixB t found cnt 0 0 (SECTORS_PER_TRACK (t - 1)) with
    | (found1, cnt1, cf, st1) =>
      let free := st1.mem (bamFreeOff (t - 1))
      if free ≠ cf then
        let st2 := if fixB then setByte st1 (bamFreeOff (t - 1)) cf else st1
        verifyTrackLoop st2 u fixB true (cnt1 + 1) (t + 1) n
      else verifyTrackLoop st1 u fixB found1 cnt1 (t + 1) n

/-- d64::verifyBAMIntegrity: build the live-sector usage map (the BAM sector
    itself plus the directory chain plus every live entry's chain), compare
    it against the BAM track by track, optionally repairing, and return
    (not errorsFound, number of reported discrepancies, resulting state). -/
def verifyBAMIntegrity (st : State) (fixB : Bool) (fuel : Nat) : Bool × Nat × State :=
  let u0 : Nat → Nat → Bool := fun a b => decide (a = DIRECTORY_TRACK - 1 ∧ b = BAM_SECTOR)
  let u := markDirLoop st u0 DIRECTORY_TRACK DIRECTORY_SECTOR fuel fuel
  match verifyTrackLoop st u fixB false 0 1 st.tracks with
  | (found, cnt, st1) => (!found, cnt, st1)

/-- The BAM free bit of (1-based track, sector): true when the sector is
    marked free, false when allocated (the test of bamTrackEntry::test). -/
def bamTestBit (st : State) (t s : Nat) : Bool :=
  st.mem (bamByteOff (t - 1) (s / 8)) &&& (1 <<< (s % 8)) != 0

/-- The sector chain reachable from (t, s) by following the two-byte next
    pointers, read in a fixed state; none when the walk does not reach a
    zero track within fuel steps. -/
def chainFollow (st : State) (t s : Nat) : Nat → Option (List (Nat × Nat))
  | 0 => none
  | fuel + 1 =>
    if t = 0 then some []
    else
      match chainFollow st (st.mem (calcOffset st t s)) (st.mem (calcOffset st t s + 1)) fuel with
      | none => none
      | some l => some ((t, s) :: l)

/-- A chain element that freeSector accepts and that is not the protected
    directory pair and not the BAM sector (whose bytes alias the bitmap). -/
def chainOk (p : Nat × Nat) : Prop :=
  1 ≤ p.1 ∧ p.1 ≤ 35 ∧ p.2 ≤ SECTORS_PER_TRACK p.1 ∧ ¬(p.1 = 18 ∧ p.2 ≤ 1)

instance (p : Nat × Nat) : Decidable (chainOk p) := by unfold chainOk; infer_instance

/-- The one-byte file name used by the concrete scenarios. -/
def fileNameA : List Nat := [65]

/-- Concrete scenario: a REL file with record size 1 and contents [5, 7]
    added to a fresh disk.  Its side sector lands at (18, 10) and its single
    data sector at (18, 2). -/
def relState : Bool × State := addRelFile freshDisk fileNameA 1 [5, 7] 50

/-- Concrete scenario: an empty sequential file added to a fresh disk. -/
def emptyAdd : Bool × State := addFile freshDisk fileNameA 1 [] 20

/-- Concrete scenario: a three-byte sequential file on a fresh disk. -/
def stABC : State := (addFile freshDisk fileNameA 1 [1, 2, 3] 20).2

/-- stABC with the BAM bit of the file's data sector (18, 10) flipped back to
    free, inconsistently with the live chain. -/
def stFlip : State := setByte stABC (bamByteOff 17 1) 255

/-- The state produced by the repairing verifier run on stFlip. -/
def stFixed : State := (verifyBAMIntegrity stFlip true 30).2.2

/-- A 35-track disk whose BAM free counts are all zero (every track full). -/
def fullDisk : State :=
  (List.range 35).foldl (fun st t => setByte st (bamFreeOff t) 0) freshDisk

/-- A fresh disk whose first directory sector has all 8 entries closed, so
    the directory chain is exhausted. -/
def fullDir : State :=
  (List.range 8).foldl (fun st i => setByte st (91650 + 30 * i) 128) freshDisk

/-- C1: the spec claims add-then-read round-trips for every length including
    0, but addFile never writes the single sector it allocates for empty
    data, so the chain walk of readPRGFile enters the freshly formatted
    0x01-filled area and never reaches a zero track: the source loops
    forever, and the fuel model returns none for every fuel.  Helper: from
    sector (1, 1) of that image the walk is stuck forever. -/
lemma readChainLoop_stuck : ∀ (fuel : Nat) (acc : List Nat),
    readChainLoop emptyAdd.2 1 1 acc fuel = none := by
  intro fuel
  induction fuel with
  | zero => intro acc; rfl
  | succ n ih =>
    intro acc
    have step : readChainLoop emptyAdd.2 1 1 acc (n + 1) =
        readChainLoop emptyAdd.2 1 1
          (acc ++ (List.range 254).map fun (j : Nat) => emptyAdd.2.mem (256 + 2 + (j : Int))) n := rfl
    rw [step]
    exact ih _

/-- C1: adding a zero-length sequential file succeeds, but reading it back by
    name returns nothing for every fuel bound (the source's read loop never
    terminates), instead of the original empty byte sequence. -/
theorem addFile_empty_roundtrip_fails :
    emptyAdd.1 = true ∧ ∀ fuel : Nat, readFile emptyAdd.2 fileNameA fuel = none := by
  refine ⟨rfl, ?_⟩
  intro fuel
  match fuel with
  | 0 => rfl
  | n + 1 =>
    have h1 : readFile emptyAdd.2 fileNameA (n + 1) =
        readChainLoop emptyAdd.2 1 1
          ((List.range 254).map fun (j : Nat) => emptyAdd.2.mem (93952 + 2 + (j : Int))) n := rfl
    rw [h1]
    exact readChainLoop_stuck n _

/-- C2: addRelFile packs the data 254 bytes per sector, but readRELFile reads
    only record_length bytes per mapped sector, so the REL round-trip the
    spec and the repository's own readrelfile_test assert fails: a record
    size 1 file with contents [5, 7] reads back as [5]. -/
theorem addRelFile_roundtrip_fails :
    relState.1 = true ∧ readFile relState.2 fileNameA 50 = some [5] ∧
    (some [5] : Option (List Nat)) ≠ some [5, 7] :=
  ⟨rfl, rfl, by decide⟩

/-- C3: sector (18, 0) is already allocated on a fresh disk (bit 0 of the
    track-18 bitmap is 0), yet allocateSector returns true and decrements the
    free count from 17 to 16: the already-allocated test of the source reads
    (val | (1 << bit)) == 0 and never fires. -/
theorem allocateSector_double_allocation :
    freshDisk.mem (bamByteOff 17 0) &&& 1 = 0 ∧
    (allocateSector freshDisk 18 0).1 = true ∧
    freshDisk.mem (bamFreeOff 17) = 17 ∧
    (allocateSector freshDisk 18 0).2.mem (bamFreeOff 17) = 16 :=
  ⟨rfl, rfl, rfl, rfl⟩

/-- C4: on a disk whose directory chain is exhausted (all 8 entries of the
    first and only directory sector closed), findEmptyDirectorySlot allocates
    a new sector (18, 10) and returns its first entry offset 93954, but the
    old last sector's next pointer at 91648/91649 still holds the end marker
    (0, 0xFF) — the new sector is never linked — the new sector still holds
    its pre-existing bytes (not cleared), and the clear/terminate writes went
    through the stale end-of-chain pointer instead, clobbering image bytes
    0 .. 254 near offset -1 (byte 0 becomes 0xFF, byte 20 becomes 0). -/
theorem findEmptyDirectorySlot_does_not_link :
    (findEmptyDirectorySlot fullDir 10).1 = some 93954 ∧
    (findEmptyDirectorySlot fullDir 10).2.mem 91648 = 0 ∧
    (findEmptyDirectorySlot fullDir 10).2.mem 91649 = 255 ∧
    (findEmptyDirectorySlot fullDir 10).2.mem 93952 = 1 ∧
    (findEmptyDirectorySlot fullDir 10).2.mem 0 = 255 ∧
    fullDir.mem 20 = 1 ∧
    (findEmptyDirectorySlot fullDir 10).2.mem 20 = 0 :=
  ⟨rfl, rfl, rfl, rfl, rfl, rfl, rfl⟩

/-- C6: the variant test of findAndAllocateFreeSector compares the disktype
    enum against the integer 35 and is never true, so even the 35-track disk
    uses the 40-entry search order: with every real track full, the search
    walks into tracks 36-40, reads the disk-name bytes as a BAM entry and
    reports a bogus free sector on track 36 (the allocateSector call inside
    rejects track 36 but its result is ignored). -/
theorem findAndAllocateFreeSector_wrong_variant :
    fullDisk.tracks = 35 ∧ fullDisk.disktypeN = 0 ∧
    (findAndAllocateFreeSector fullDisk).1 = some (36, 10) :=
  ⟨rfl, rfl, rfl⟩

/-- C7: the REL file of relState has exactly one side sector, located at
    (18, 10) per the directory entry, but the sibling table of that side
    sector records (18, 0): the source writes the track byte twice and never
    the sector byte, and its final fix-up loop copies side_count = 0 entries
    because side_count is never incremented. -/
theorem addRelFile_sibling_list_wrong :
    relState.1 = true ∧
    relState.2.mem 91669 = 18 ∧ relState.2.mem 91670 = 10 ∧
    relState.2.mem (93952 + 4) = 18 ∧ relState.2.mem (93952 + 5) = 0 ∧
    relState.2.mem (93952 + 5) ≠ relState.2.mem 91670 :=
  ⟨rfl, rfl, rfl, rfl, rfl, by decide⟩

/-- C9 helper: taking up to the first index where the byte is 0xA0 is the
    same as taking while bytes differ from 0xA0. -/
lemma take_findIdx_eq_takeWhile (l : List Nat) :
    l.take (l.findIdx (fun b => b == A0_VALUE)) = l.takeWhile (fun b => b != A0_VALUE) := by
  induction l with
  | nil => rfl
  | cons a l ih =>
    by_cases h : a = A0_VALUE
    · have hb : (a == A0_VALUE) = true := by simpa using h
      simp [List.findIdx_cons, List.takeWhile_cons, hb, h]
    · have hb : (a == A0_VALUE) = false := by simpa using h
      simp [List.findIdx_cons, List.takeWhile_cons, hb, h, ih]

/-- C9: the per-entry comparison of findFile succeeds exactly when the query
    equals the portion of the stored 16-byte name before its first 0xA0 byte
    (everything from the first 0xA0 onward is discarded, not only trailing
    padding). -/
theorem findFile_matches_prefix_before_A0 (m : Mem) (off : Int) (q : List Nat) :
    nameMatches m off q = true ↔ q = (entryName m off).takeWhile (fun b => b != A0_VALUE) := by
  unfold nameMatches eraseFromFirstA0
  rw [take_findIdx_eq_takeWhile, beq_iff_eq]
  exact eq_comm

/-- C10: when the old name is found at entry offset off, renameFile returns
    true, writes exactly the 16 file-name bytes of that entry (the new name
    truncated to 16 bytes, padded with 0xA0), and leaves every other byte of
    the image and every other component of the state unchanged. -/
theorem renameFile_writes_only_name (st : State) (oldName newName : List Nat)
    (fuel : Nat) (off : Int) (h : findFile st oldName fuel = some off) :
    (renameFile st oldName newName fuel).1 = true ∧
    (∀ i : Int, i < off + 3 ∨ off + 19 ≤ i →
      (renameFile st oldName newName fuel).2.mem i = st.mem i) ∧
    (∀ j : Nat, j < 16 →
      (renameFile st oldName newName fuel).2.mem (off + 3 + j) =
        (if j < min newName.length 16 then newName.getD j 0 else A0_VALUE)) ∧
    (renameFile st oldName newName fuel).2.size = st.size ∧
    (renameFile st oldName newName fuel).2.tracks = st.tracks ∧
    (renameFile st oldName newName fuel).2.lastSectorUsed = st.lastSectorUsed := by
  have e : renameFile st oldName newName fuel = (true, { st with mem := writeRange st.mem (off + 3) 16 (fun j => if j < min newName.length 16 then newName.getD j 0 else A0_VALUE) }) := by
    simp only [renameFile, h]
  rw [e]
  refine ⟨rfl, ?_, ?_, rfl, rfl, rfl⟩
  · intro i hi
    simp only [writeRange]
    rw [if_neg]
    omega
  · intro j hj
    simp only [writeRange]
    rw [if_pos (by omega)]
    have h2 : (off + 3 + (j : Int) - (off + 3)).toNat = j := by omega
    rw [h2]

/-- Witness for C10 at a concrete input: on the disk stABC the file A sits at
    entry offset 91650; renaming it to C leaves the byte before the name
    field (the start-sector byte at 91652) and a far-away byte unchanged and
    writes C then 0xA0 into the first two name bytes. -/
theorem renameFile_writes_only_name_witness :
    findFile stABC fileNameA 20 = some 91650 ∧
    (renameFile stABC fileNameA [67] 20).2.mem 91652 = stABC.mem 91652 ∧
    (renameFile stABC fileNameA [67] 20).2.mem 0 = stABC.mem 0 ∧
    (renameFile stABC fileNameA [67] 20).2.mem (91650 + 3 + (0 : Nat)) = 67 ∧
    (renameFile stABC fileNameA [67] 20).2.mem (91650 + 3 + (1 : Nat)) = A0_VALUE := by
  have h := renameFile_writes_only_name stABC fileNameA [67] 20 91650 rfl
  refine ⟨rfl, h.2.1 91652 (by omega), h.2.1 0 (by omega), ?_, ?_⟩
  · have h3 := h.2.2.1 0 (by omega)
    simpa using h3
  · have h3 := h.2.2.1 1 (by omega)
    simpa using h3

/-- Bit bridge: the source's test val AND (1 shifted by k) as a testBit. -/
lemma land_shift_ne_zero_iff (x k : Nat) :
    (x &&& (1 <<< k) ≠ 0) ↔ x.testBit k = true := by
  rw [Nat.one_shiftLeft, Nat.and_two_pow]
  cases h : x.testBit k
  · simp
  · simp [(Nat.two_pow_pos k).ne']

/-- bamTestBit spelled with testBit. -/
lemma bamTestBit_true_iff (st : State) (t s : Nat) :
    bamTestBit st t s = true ↔
      (st.mem (bamByteOff (t - 1) (s / 8))).testBit (s % 8) = true := by
  unfold bamTestBit
  rw [bne_iff_ne]
  exact land_shift_ne_zero_iff _ _

/-- Every track has at most 21 sectors. -/
lemma sectorsPerTrack_le (i : Nat) : SECTORS_PER_TRACK i ≤ 21 := by
  unfold SECTORS_PER_TRACK
  split_ifs <;> omega

/-- The sector count table is antitone. -/
lemma sectorsPerTrack_anti (i j : Nat) (h : i ≤ j) :
    SECTORS_PER_TRACK j ≤ SECTORS_PER_TRACK i := by
  unfold SECTORS_PER_TRACK
  split_ifs <;> omega

/-- freeSector either leaves the state unchanged or performs exactly its two
    BAM writes, and then the arguments passed its validation. -/
lemma freeSector_cases (st : State) (t s : Nat) :
    (freeSector st t s).2 = st ∨
    ((freeSector st t s).2 =
        setByte (setByte st (bamFreeOff (t - 1)) ((st.mem (bamFreeOff (t - 1)) + 1) % 256))
          (bamByteOff (t - 1) (s / 8))
          (st.mem (bamByteOff (t - 1) (s / 8)) ||| (1 <<< (s % 8))) ∧
      1 ≤ t ∧ t ≤ st.tracks ∧ s ≤ SECTORS_PER_TRACK t) := by
  unfold freeSector
  split_ifs with h1 h2 h3
  · exact Or.inl rfl
  · exact Or.inl rfl
  · exact Or.inl rfl
  · dsimp only
    split_ifs with h4
    · exact Or.inl rfl
    · exact Or.inr ⟨rfl, by omega, by omega, by omega⟩

/-- freeSector never changes the track count. -/
lemma freeSector_tracks (st : State) (t s : Nat) :
    (freeSector st t s).2.tracks = st.tracks := by
  rcases freeSector_cases st t s with h | ⟨h, _⟩
  · rw [h]
  · rw [h]; rfl

/-- freeSector writes only inside the BAM entry table, the byte region
    from BAM_BASE + 4 up to BAM_BASE + 164. -/
lemma freeSector_frame (st : State) (t s : Nat) (htr : st.tracks ≤ 40) (o : Int)
    (ho : o < BAM_BASE + 4 ∨ BAM_BASE + 164 ≤ o) :
    (freeSector st t s).2.mem o = st.mem o := by
  rcases freeSector_cases st t s with h | ⟨h, h1, h2, h3⟩
  · rw [h]
  · rw [h]
    have hs : s / 8 ≤ 2 := by
      have := sectorsPerTrack_le t
      omega
    simp only [setByte, bamFreeOff, bamByteOff]
    rw [if_neg (by omega), if_neg (by omega)]

/-- freeSector preserves any set BAM bit with a sector index in range. -/
lemma freeSector_preserves_bit (st : State) (t s τ σ : Nat) (hσ : σ ≤ 21)
    (h : bamTestBit st τ σ = true) : bamTestBit (freeSector st t s).2 τ σ = true := by
  rcases freeSector_cases st t s with hc | ⟨hc, h1, h2, h3⟩
  · rw [hc]; exact h
  · rw [hc]
    rw [bamTestBit_true_iff] at h ⊢
    simp only [setByte]
    by_cases he : (bamByteOff (τ - 1) (σ / 8) : Int) = bamByteOff (t - 1) (s / 8)
    · rw [if_pos he, ← he]
      rw [Nat.one_shiftLeft, Nat.testBit_lor, h]
      rfl
    · rw [if_neg he]
      have hf : (bamByteOff (τ - 1) (σ / 8) : Int) ≠ bamFreeOff (t - 1) := by
        simp only [bamFreeOff, bamByteOff]
        omega
      rw [if_neg hf]
      exact h

/-- When its validation passes and the pair is not protected, freeSector
    leaves the target BAM bit set (whether or not it was set before). -/
lemma freeSector_sets_bit (st : State) (t s : Nat) (h1 : 1 ≤ t) (h2 : t ≤ st.tracks)
    (h3 : s ≤ SECTORS_PER_TRACK t) (h4 : ¬(t = 18 ∧ s ≤ 1)) :
    bamTestBit (freeSector st t s).2 t s = true := by
  unfold freeSector DIRECTORY_TRACK DIRECTORY_SECTOR BAM_SECTOR
  rw [if_neg (by omega : ¬(t < 1 ∨ t > st.tracks ∨ s > SECTORS_PER_TRACK t))]
  rw [if_neg (by omega : ¬(t = 18 ∧ s = 1))]
  rw [if_neg (by omega : ¬(t = 18 ∧ s = 0))]
  dsimp only
  split_ifs with h5
  · unfold bamTestBit
    rw [bne_iff_ne]
    exact h5
  · rw [bamTestBit_true_iff]
    simp only [setByte]
    rw [if_pos trivial]
    rw [Nat.one_shiftLeft, Nat.testBit_lor, Nat.testBit_two_pow_self]
    exact Bool.or_true _

/-- Geometry: the two pointer bytes of any chainOk sector lie outside the
    byte region of the BAM entry table that freeSector writes. -/
lemma chain_offset_outside (t s : Nat) (h1 : 1 ≤ t) (h2 : t ≤ 35)
    (h3 : s ≤ SECTORS_PER_TRACK t) (h4 : ¬(t = 18 ∧ s ≤ 1)) :
    TRACK_OFFSETS (t - 1) + (s : Int) * 256 + 1 < BAM_BASE + 4 ∨
      BAM_BASE + 164 ≤ TRACK_OFFSETS (t - 1) + (s : Int) * 256 := by
  have h357 : trackBaseSectors 17 = 357 := rfl
  have hs21 : s ≤ 21 := le_trans h3 (sectorsPerTrack_le t)
  unfold BAM_BASE TRACK_OFFSETS
  rw [h357]
  by_cases h17 : t ≤ 17
  · left
    have e1 : trackBaseSectors (t - 1) = 21 * (t - 1) := by
      unfold trackBaseSectors
      rw [if_pos (by omega)]
    have hsv : 21 * (t - 1) + s ≤ 356 := by
      by_cases h16 : t < 17
      · omega
      · have e2 : SECTORS_PER_TRACK t = 19 := by
          unfold SECTORS_PER_TRACK
          rw [if_neg (by omega), if_pos (by omega)]
        omega
    rw [e1]
    omega
  · by_cases h18 : t = 18
    · right
      subst h18
      have e1 : trackBaseSectors (18 - 1) = 357 := rfl
      rw [e1]
      omega
    · right
      have e3 : 376 ≤ trackBaseSectors (t - 1) := by
        unfold trackBaseSectors
        split_ifs <;> omega
      omega

/-- calcOffset on a chainOk address is the plain geometric offset. -/
lemma calcOffset_eq (st : State) (t s : Nat) (h35 : st.tracks = 35)
    (hok : chainOk (t, s)) :
    calcOffset st t s = TRACK_OFFSETS (t - 1) + (s : Int) * 256 := by
  have hok2 : 1 ≤ t ∧ t ≤ 35 ∧ s ≤ SECTORS_PER_TRACK t ∧ ¬(t = 18 ∧ s ≤ 1) := hok
  obtain ⟨h1, h2, h3, h4⟩ := hok2
  have h5 : SECTORS_PER_TRACK t ≤ SECTORS_PER_TRACK (t - 1) :=
    sectorsPerTrack_anti (t - 1) t (by omega)
  unfold calcOffset
  rw [if_neg (by omega)]

/-- chainFollow only reads the pointer bytes of its chainOk elements, so it
    is stable under any state change confined to the BAM entry table. -/
lemma chainFollow_congr : ∀ (fuel t s : Nat) (l : List (Nat × Nat)) (st st1 : State),
    st.tracks = 35 → st1.tracks = 35 →
    (∀ o : Int, o < BAM_BASE + 4 ∨ BAM_BASE + 164 ≤ o → st1.mem o = st.mem o) →
    chainFollow st t s fuel = some l →
    (∀ p ∈ l, chainOk p) →
    chainFollow st1 t s fuel = some l := by
  intro fuel
  induction fuel with
  | zero =>
    intro t s l st st1 _ _ _ hc _
    exact absurd hc (by simp [chainFollow])
  | succ n ih =>
    intro t s l st st1 h35 h35b hmem hc hok
    rw [chainFollow] at hc ⊢
    by_cases ht : t = 0
    · rw [if_pos ht] at hc ⊢
      exact hc
    · rw [if_neg ht] at hc ⊢
      cases hcf : chainFollow st (st.mem (calcOffset st t s)) (st.mem (calcOffset st t s + 1)) n with
      | none => rw [hcf] at hc; exact absurd hc (by simp)
      | some l1 =>
        rw [hcf] at hc
        have hl : l = (t, s) :: l1 := by
          cases hc
          rfl
        subst hl
        have hokh : chainOk (t, s) := hok _ (List.mem_cons_self _ _)
        have hoff := calcOffset_eq st t s h35 hokh
        have hoff1 := calcOffset_eq st1 t s h35b hokh
        have hokh2 : 1 ≤ t ∧ t ≤ 35 ∧ s ≤ SECTORS_PER_TRACK t ∧ ¬(t = 18 ∧ s ≤ 1) := hokh
        obtain ⟨hk1, hk2, hk3, hk4⟩ := hokh2
        have houts := chain_offset_outside t s hk1 hk2 hk3 hk4
        have hm0 : st1.mem (calcOffset st1 t s) = st.mem (calcOffset st t s) := by
          rw [hoff, hoff1]
          apply hmem
          rcases houts with h | h
          · left; omega
          · right; omega
        have hm1 : st1.mem (calcOffset st1 t s + 1) = st.mem (calcOffset st t s + 1) := by
          rw [hoff, hoff1]
          apply hmem
          rcases houts with h | h
          · left; omega
          · right; omega
        rw [hm0, hm1,
          ih _ _ _ st st1 h35 h35b hmem hcf (fun p hp => hok p (List.mem_cons_of_mem _ hp))]

/-- The free loop of removeFile: it walks exactly the pre-state chain, its
    writes stay inside the BAM entry table, it preserves any set BAM bit,
    and every chainOk element of the chain ends up free. -/
lemma freeChainLoop_spec : ∀ (fuel t s : Nat) (l : List (Nat × Nat)) (st : State),
    st.tracks = 35 →
    chainFollow st t s fuel = some l →
    (∀ p ∈ l, chainOk p) →
    ((freeChainLoop st t s fuel).tracks = 35 ∧
     (∀ o : Int, o < BAM_BASE + 4 ∨ BAM_BASE + 164 ≤ o →
       (freeChainLoop st t s fuel).mem o = st.mem o) ∧
     (∀ τ σ : Nat, σ ≤ 21 → bamTestBit st τ σ = true →
       bamTestBit (freeChainLoop st t s fuel) τ σ = true) ∧
     (∀ p ∈ l, bamTestBit (freeChainLoop st t s fuel) p.1 p.2 = true)) := by
  intro fuel
  induction fuel with
  | zero =>
    intro t s l st _ hc _
    exact absurd hc (by simp [chainFollow])
  | succ n ih =>
    intro t s l st h35 hc hok
    rw [chainFollow] at hc
    rw [freeChainLoop]
    by_cases ht : t = 0
    · rw [if_pos ht] at hc
      rw [if_pos ht]
      have hl : l = [] := by cases hc; rfl
      subst hl
      exact ⟨h35, fun o _ => rfl, fun τ σ _ h => h, fun p hp => absurd hp (by simp)⟩
    · rw [if_neg ht] at hc
      rw [if_neg ht]
      dsimp only
      cases hcf : chainFollow st (st.mem (calcOffset st t s)) (st.mem (calcOffset st t s + 1)) n with
      | none => rw [hcf] at hc; exact absurd hc (by simp)
      | some l1 =>
        rw [hcf] at hc
        have hl : l = (t, s) :: l1 := by cases hc; rfl
        subst hl
        have hokh : chainOk (t, s) := hok _ (List.mem_cons_self _ _)
        have hokt : ∀ p ∈ l1, chainOk p := fun p hp => hok p (List.mem_cons_of_mem _ hp)
        have hokh2 : 1 ≤ t ∧ t ≤ 35 ∧ s ≤ SECTORS_PER_TRACK t ∧ ¬(t = 18 ∧ s ≤ 1) := hokh
        obtain ⟨hk1, hk2, hk3, hk4⟩ := hokh2
        have htr1 : (freeSector st t s).2.tracks = 35 := by
          rw [freeSector_tracks]; exact h35
        have hframe1 : ∀ o : Int, o < BAM_BASE + 4 ∨ BAM_BASE + 164 ≤ o →
            (freeSector st t s).2.mem o = st.mem o :=
          fun o ho => freeSector_frame st t s (by omega) o ho
        have hcf1 : chainFollow (freeSector st t s).2 (st.mem (calcOffset st t s))
            (st.mem (calcOffset st t s + 1)) n = some l1 :=
          chainFollow_congr n _ _ l1 st (freeSector st t s).2 h35 htr1 hframe1 hcf hokt
        obtain ⟨ih1, ih2, ih3, ih4⟩ :=
          ih (st.mem (calcOffset st t s)) (st.mem (calcOffset st t s + 1)) l1
            (freeSector st t s).2 htr1 hcf1 hokt
        refine ⟨ih1, ?_, ?_, ?_⟩
        · intro o ho
          rw [ih2 o ho, hframe1 o ho]
        · intro τ σ hσ h
          exact ih3 τ σ hσ (freeSector_preserves_bit st t s τ σ hσ h)
        · intro p hp
          rcases List.mem_cons.mp hp with hph | hpt
          · subst hph
            have hset := freeSector_sets_bit st t s hk1 (by omega) hk3 hk4
            have hs21 : s ≤ 21 := by
              have := sectorsPerTrack_le t
              omega
            exact ih3 t s hs21 hset
          · exact ih4 p hpt

/-- C5 counterexample: in relState the REL file's side sector (18, 10) chains
    to the data sector (18, 2) through the side sector's chain table, and
    that data sector is allocated; removeFile succeeds but leaves (18, 2)
    allocated, because the walk from the entry's start address follows only
    the next-pointer chain (the side sectors), never the chain table. -/
theorem removeFile_rel_data_sector_not_freed :
    relState.1 = true ∧
    relState.2.mem (93952 + 16) = 18 ∧ relState.2.mem (93952 + 17) = 2 ∧
    bamTestBit relState.2 18 2 = false ∧
    (removeFile relState.2 fileNameA 50).1 = true ∧
    bamTestBit (removeFile relState.2 fileNameA 50).2 18 2 = false :=
  ⟨rfl, rfl, rfl, rfl, rfl, rfl⟩

/-- C5 as amended: when the name is not found removeFile returns false and
    changes nothing; when it is found, it returns true, zeroes the 30-byte
    directory entry, and frees every sector of the next-pointer chain
    reachable from the entry's start address (for a REL file that chain is
    the side-sector chain only).  The chain hypothesis pins down the chain in
    the pre-state; chainOk restricts it to addresses the free path accepts. -/
theorem removeFile_frees_reachable_chain (st : State) (nm : List Nat) (fuel : Nat) :
    (findFile st nm fuel = none → removeFile st nm fuel = (false, st)) ∧
    (∀ (off : Int) (l : List (Nat × Nat)),
      findFile st nm fuel = some off →
      chainFollow st (st.mem (off + 1)) (st.mem (off + 2)) fuel = some l →
      st.tracks = 35 →
      (∀ p ∈ l, chainOk p) →
      BAM_BASE + 164 ≤ off →
      ((removeFile st nm fuel).1 = true ∧
       (∀ p ∈ l, bamTestBit (removeFile st nm fuel).2 p.1 p.2 = true) ∧
       (∀ j : Nat, j < 30 → (removeFile st nm fuel).2.mem (off + j) = 0))) := by
  constructor
  · intro h
    simp only [removeFile, h]
  · intro off l hf hc h35 hok hoff
    simp only [removeFile, hf]
    obtain ⟨htr, hframe, hmono, hbits⟩ :=
      freeChainLoop_spec fuel (st.mem (off + 1)) (st.mem (off + 2)) l st h35 hc hok
    refine ⟨trivial, ?_, ?_⟩
    · intro p hp
      have hokp2 : 1 ≤ p.1 ∧ p.1 ≤ 35 ∧ p.2 ≤ SECTORS_PER_TRACK p.1 ∧
          ¬(p.1 = 18 ∧ p.2 ≤ 1) := hok p hp
      have hspt := sectorsPerTrack_le p.1
      have hb := hbits p hp
      rw [bamTestBit_true_iff] at hb ⊢
      simp only [writeRange]
      rw [if_neg]
      · exact hb
      · simp only [bamByteOff]
        omega
    · intro j hj
      simp only [writeRange]
      rw [if_pos (by omega)]

/-- Witness for C5 at the concrete REL scenario: the file A of relState sits
    at entry offset 91650, its reachable next-pointer chain is exactly the
    side sector (18, 10), and after removeFile that sector is free and the
    entry bytes are zero. -/
theorem removeFile_frees_reachable_chain_witness :
    findFile relState.2 fileNameA 50 = some 91650 ∧
    chainFollow relState.2 (relState.2.mem (91650 + 1)) (relState.2.mem (91650 + 2)) 50 =
      some [(18, 10)] ∧
    bamTestBit (removeFile relState.2 fileNameA 50).2 18 10 = true ∧
    (removeFile relState.2 fileNameA 50).2.mem (91650 + (5 : Nat)) = 0 := by
  have h := (removeFile_frees_reachable_chain relState.2 fileNameA 50).2 91650 [(18, 10)]
    rfl rfl rfl (by decide) (by decide)
  exact ⟨rfl, rfl, h.2.1 (18, 10) (by simp), h.2.2 5 (by omega)⟩

/-- The sector loop of the verifier can only raise the discrepancy count, and
    its errorsFound flag is set exactly when it came in set or the count rose. -/
lemma verifySectorLoop_invariant : ∀ (n : Nat) (st : State) (u : Nat → Nat → Bool)
    (fixB : Bool) (t : Nat) (found : Bool) (cnt cf s : Nat),
    cnt ≤ (verifySectorLoop st u fixB t found cnt cf s n).2.1 ∧
    ((verifySectorLoop st u fixB t found cnt cf s n).1 = true ↔
      (found = true ∨ cnt < (verifySectorLoop st u fixB t found cnt cf s n).2.1)) := by
  intro n
  induction n with
  | zero =>
    intro st u fixB t found cnt cf s
    refine ⟨le_refl _, ?_⟩
    simp [verifySectorLoop]
  | succ n ih =>
    intro st u fixB t found cnt cf s
    rw [verifySectorLoop]
    dsimp only
    split_ifs with h1 h2 h3 h4 h5
    · have h := ih (setByte st (bamByteOff (t - 1) (s / 8))
        (st.mem (bamByteOff (t - 1) (s / 8)) ||| 1 <<< (s % 8))) u fixB t true
        (cnt + 1) (cf + 1) (s + 1)
      exact ⟨by have := h.1; omega,
        ⟨fun _ => Or.inr (by have := h.1; omega), fun _ => h.2.mpr (Or.inl rfl)⟩⟩
    · have h := ih st u fixB t true (cnt + 1) (cf + 1) (s + 1)
      exact ⟨by have := h.1; omega,
        ⟨fun _ => Or.inr (by have := h.1; omega), fun _ => h.2.mpr (Or.inl rfl)⟩⟩
    · have h := ih (setByte st (bamByteOff (t - 1) (s / 8))
        (st.mem (bamByteOff (t - 1) (s / 8)) &&& (255 ^^^ 1 <<< (s % 8)))) u fixB t true
        (cnt + 1) cf (s + 1)
      exact ⟨by have := h.1; omega,
        ⟨fun _ => Or.inr (by have := h.1; omega), fun _ => h.2.mpr (Or.inl rfl)⟩⟩
    · have h := ih st u fixB t true (cnt + 1) cf (s + 1)
      exact ⟨by have := h.1; omega,
        ⟨fun _ => Or.inr (by have := h.1; omega), fun _ => h.2.mpr (Or.inl rfl)⟩⟩
    · exact ih st u fixB t found cnt cf (s + 1)
    · exact ih st u fixB t found cnt (cf + 1) (s + 1)

/-- Same invariant lifted over the track loop of the verifier. -/
lemma verifyTrackLoop_invariant : ∀ (n : Nat) (st : State) (u : Nat → Nat → Bool)
    (fixB found : Bool) (cnt t : Nat),
    cnt ≤ (verifyTrackLoop st u fixB found cnt t n).2.1 ∧
    ((verifyTrackLoop st u fixB found cnt t n).1 = true ↔
      (found = true ∨ cnt < (verifyTrackLoop st u fixB found cnt t n).2.1)) := by
  intro n
  induction n with
  | zero =>
    intro st u fixB found cnt t
    refine ⟨le_refl _, ?_⟩
    simp [verifyTrackLoop]
  | succ n ih =>
    intro st u fixB found cnt t
    rw [verifyTrackLoop]
    rcases hE : verifySectorLoop st u fixB t found cnt 0 0 (SECTORS_PER_TRACK (t - 1))
      with ⟨found1, cnt1, cf, st1⟩
    obtain ⟨hsa, hsb⟩ := verifySectorLoop_invariant (SECTORS_PER_TRACK (t - 1))
      st u fixB t found cnt 0 0
    rw [hE] at hsa hsb
    dsimp only at hsa hsb ⊢
    split_ifs with hfree hfix
    · have h := ih (setByte st1 (bamFreeOff (t - 1)) cf) u fixB true (cnt1 + 1) (t + 1)
      exact ⟨by have := h.1; omega,
        ⟨fun _ => Or.inr (by have := h.1; omega), fun _ => h.2.mpr (Or.inl rfl)⟩⟩
    · have h := ih st1 u fixB true (cnt1 + 1) (t + 1)
      exact ⟨by have := h.1; omega,
        ⟨fun _ => Or.inr (by have := h.1; omega), fun _ => h.2.mpr (Or.inl rfl)⟩⟩
    · obtain ⟨ha, hb⟩ := ih st1 u fixB found1 cnt1 (t + 1)
      refine ⟨by omega, ?_⟩
      rw [hb, hsb]
      constructor
      · intro hor
        rcases hor with (hor | hor) | hor
        · exact Or.inl hor
        · exact Or.inr (by omega)
        · exact Or.inr (by omega)
      · intro hor
        rcases hor with hor | hor
        · exact Or.inl (Or.inl hor)
        · by_cases hcc : cnt < cnt1
          · exact Or.inl (Or.inr hcc)
          · exact Or.inr (by omega)

/-- C8: the verifier returns true exactly when it reported zero
    discrepancies, for every state and either repair flag; on the freshly
    formatted disk it is clean; after flipping the BAM bit of the live file's
    data sector of stABC back to free it reports exactly one discrepancy and
    returns false; the repairing run corrects the image so that a subsequent
    non-repairing run is clean again. -/
theorem verifyBAMIntegrity_spec :
    (∀ (st : State) (fixB : Bool) (fuel : Nat),
      ((verifyBAMIntegrity st fixB fuel).1 = true ↔
        (verifyBAMIntegrity st fixB fuel).2.1 = 0)) ∧
    verifyBAMIntegrity freshDisk false 30 = (true, 0, freshDisk) ∧
    verifyBAMIntegrity stABC false 30 = (true, 0, stABC) ∧
    verifyBAMIntegrity stFlip false 30 = (false, 1, stFlip) ∧
    (verifyBAMIntegrity stFlip true 30).1 = false ∧
    (verifyBAMIntegrity stFlip true 30).2.1 = 1 ∧
    verifyBAMIntegrity stFixed false 30 = (true, 0, stFixed) := by
  refine ⟨?_, rfl, rfl, rfl, rfl, rfl, rfl⟩
  intro st fixB fuel
  unfold verifyBAMIntegrity
  dsimp only
  rcases hE : verifyTrackLoop st
      (markDirLoop st (fun a b => decide (a = DIRECTORY_TRACK - 1 ∧ b = BAM_SECTOR))
        DIRECTORY_TRACK DIRECTORY_SECTOR fuel fuel) fixB false 0 1 st.tracks
    with ⟨found, cnt, st1⟩
  obtain ⟨ha, hb⟩ := verifyTrackLoop_invariant st.tracks st
    (markDirLoop st (fun a b => decide (a = DIRECTORY_TRACK - 1 ∧ b = BAM_SECTOR))
      DIRECTORY_TRACK DIRECTORY_SECTOR fuel fuel) fixB false 0 1
  rw [hE] at ha hb
  dsimp only at ha hb ⊢
  cases found
  · simp only [Bool.not_false]
    constructor
    · intro _
      by_contra hc
      have := hb.mpr (Or.inr (by omega))
      exact absurd this (by simp)
    · intro _
      trivial
  · simp only [Bool.not_true]
    constructor
    · intro h
      exact absurd h (by simp)
    · intro hc
      rcases hb.mp rfl with h | h
      · exact absurd h (by simp)
      · omega
